import Mathlib

/-!
Verification of the quarter-car simulation (simulation.py) and its frame
renderer (plotting.py): a shallow embedding of both modules, followed by
theorems settling the specification claims.  Exact rational/real arithmetic
stands in for Python floats; numpy primitives (linspace, arange, interp,
argmax-based windowing) are embedded by their documented semantics.
-/

namespace QuarterCar

/-- numpy.linspace a b n: n evenly spaced samples from a to b inclusive,
with step (b - a)/(n - 1); for n = 1 the single sample is a. -/
def linspace {α : Type} [Field α] (a b : α) (n : ℕ) : List α :=
  (List.range n).map (fun k : ℕ => a + (k : α) * ((b - a) / ((n : α) - 1)))

/-- numpy.arange start stop step: samples start + k*step for
0 ≤ k < ⌈(stop - start)/step⌉. -/
def arange {α : Type} [LinearOrderedField α] [FloorRing α]
    (start stop step : α) : List α :=
  (List.range (⌈(stop - start) / step⌉).toNat).map
    (fun k : ℕ => start + (k : α) * step)

/-- Python int() applied to a rational: truncation toward zero. -/
def pyInt (q : ℚ) : ℤ := if 0 ≤ q then ⌊q⌋ else -⌊-q⌋

/-- Parameters of the quarter car simulation (simulation.py, SimulationParams). -/
structure SimulationParams where
  M : ℚ
  m : ℚ
  Ks : ℚ
  Cs : ℚ
  Kt : ℚ
  vel : ℚ
deriving DecidableEq

/-- Suspension spring natural length (run_simulation, line 90). -/
def L0_s : ℚ := 0.4

/-- Tire spring natural length (run_simulation, line 91). -/
def L0_u : ℚ := 0.3

/-- Sprung mass height (run_simulation, line 92). -/
def h_s : ℚ := 0.2

/-- Unsprung mass height (run_simulation, line 93). -/
def h_u : ℚ := 0.1

/-- Mass width, named a in the source (run_simulation, line 94). -/
def a : ℚ := 0.8

/-- Fixed distance to cover in meters (run_simulation, line 97). -/
def xF : ℚ := 6.0

/-- Playback speed multiplier (run_simulation, line 100). -/
def playback_speed : ℚ := 0.5

/-- Target frame rate over playback speed (run_simulation, line 102). -/
def fR : ℚ := 30 / playback_speed

/-- Time required to cover xF at the given speed (run_simulation, line 101). -/
def tF (p : SimulationParams) : ℚ := xF / p.vel

/-- Frame count, num_frames = int(tF * fR) (run_simulation, line 103). -/
def num_frames (p : SimulationParams) : ℤ := pyInt (tF p * fR)

/-- Simulation time axis, time = np.linspace(0, tF, num_frames)
(run_simulation, line 104). -/
def timeList (p : SimulationParams) : List ℚ :=
  linspace 0 (tF p) (num_frames p).toNat

/-- Longitudinal position, lon = vel * time (run_simulation, line 128). -/
def lonList (p : SimulationParams) : List ℚ :=
  (timeList p).map (fun t => p.vel * t)

/-- State matrix A (run_simulation, lines 111-116); state
[z_u_rel, z_u_rel_dot, z_s_rel, z_s_rel_dot]. -/
def Amat (p : SimulationParams) : Matrix (Fin 4) (Fin 4) ℚ :=
  !![0, 1, 0, 0;
     -(p.Ks + p.Kt) / p.m, -p.Cs / p.m, p.Ks / p.m, p.Cs / p.m;
     0, 0, 0, 1;
     p.Ks / p.M, p.Cs / p.M, -p.Ks / p.M, -p.Cs / p.M]

/-- Input matrix B (run_simulation, line 117). -/
def Bmat (p : SimulationParams) : Matrix (Fin 4) (Fin 1) ℚ :=
  !![0; p.Kt / p.m; 0; 0]

/-- Output matrix C (run_simulation, lines 118-121). -/
def Cmat : Matrix (Fin 2) (Fin 4) ℚ :=
  !![1, 0, 0, 0; 0, 0, 1, 0]

/-- Feedthrough matrix D (run_simulation, line 122). -/
def Dmat : Matrix (Fin 2) (Fin 1) ℚ :=
  !![0; 0]

/-- Offset of the first output to absolute coordinates,
z_u = y_out[:,0] + L0_u (run_simulation, line 137). -/
def z_u_from (y0 : ℚ) : ℚ := y0 + L0_u

/-- Offset of the second output to absolute coordinates,
z_s = y_out[:,1] + L0_u + L0_s (run_simulation, line 138). -/
def z_s_from (y1 : ℚ) : ℚ := y1 + L0_u + L0_s

/-! ### Generic list helpers -/

theorem head?_range_map {α : Type} (f : ℕ → α) {n : ℕ} (hn : 0 < n) :
    ((List.range n).map f).head? = some (f 0) := by
  obtain ⟨m, rfl⟩ := Nat.exists_eq_succ_of_ne_zero hn.ne'
  simp [List.range_succ_eq_map]

theorem getLast?_range_map {α : Type} (f : ℕ → α) {n : ℕ} (hn : 0 < n) :
    ((List.range n).map f).getLast? = some (f (n - 1)) := by
  rw [List.getLast?_eq_getElem?]
  simp only [List.length_map, List.length_range]
  rw [List.getElem?_map, List.getElem?_range (Nat.sub_lt hn one_pos)]
  rfl

theorem pairwise_range_map {α : Type} (R : α → α → Prop) (f : ℕ → α) (n : ℕ)
    (h : ∀ i j, i < j → j < n → R (f i) (f j)) :
    List.Pairwise R ((List.range n).map f) := by
  rw [List.pairwise_map, List.pairwise_iff_getElem]
  intro i j hi hj hij
  simp only [List.getElem_range]
  exact h i j hij (by simpa using hj)

theorem tail_range_map {α : Type} (f : ℕ → α) (n : ℕ) :
    ((List.range (n + 1)).map f).tail = (List.range n).map (fun k => f (k + 1)) := by
  rw [List.range_succ_eq_map, List.map_cons, List.tail_cons, List.map_map]
  rfl

/-! ### Claim C1: state-space construction and output offsets -/

/-- Claim C1: run_simulation builds the 4-state LTI system over the state
vector [z_u_rel, z_u_rel_dot, z_s_rel, z_s_rel_dot] with the claimed
A, B, C, D matrices, and offsets the two outputs to absolute coordinates
as z_u = y0 + L0_u and z_s = y1 + L0_u + L0_s with L0_u = 0.3, L0_s = 0.4. -/
theorem c1_state_space (p : SimulationParams) (y0 y1 : ℚ) :
    Amat p = !![0, 1, 0, 0;
                -(p.Ks + p.Kt) / p.m, -p.Cs / p.m, p.Ks / p.m, p.Cs / p.m;
                0, 0, 0, 1;
                p.Ks / p.M, p.Cs / p.M, -p.Ks / p.M, -p.Cs / p.M]
    ∧ Bmat p = !![0; p.Kt / p.m; 0; 0]
    ∧ Cmat = !![1, 0, 0, 0; 0, 0, 1, 0]
    ∧ Dmat = !![0; 0]
    ∧ z_u_from y0 = y0 + 0.3
    ∧ z_s_from y1 = y1 + 0.3 + 0.4 := by
  refine ⟨rfl, rfl, rfl, rfl, ?_, ?_⟩ <;> norm_num [z_u_from, z_s_from, L0_u, L0_s]

/-! ### Claim C2: the time axis -/

/-- Parameters with vel = 1.75 m/s, for which tF * 60 = 1440/7 ≈ 205.71. -/
def cexParams : SimulationParams := ⟨1500, 150, 48000, 1000, 200000, 1.75⟩

theorem tF_fR_cexParams : tF cexParams * fR = 1440 / 7 := by
  norm_num [tF, xF, fR, playback_speed, cexParams]

theorem num_frames_cexParams : num_frames cexParams = 205 := by
  unfold num_frames
  rw [tF_fR_cexParams, pyInt, if_pos (by norm_num)]
  exact Int.floor_eq_iff.mpr (by norm_num)

/-- Claim C2 fails as stated: for vel = 1.75 the frame count is
int(tF * 60) = 205 (truncation), not round(tF * 60) = 206. -/
theorem c2_counterexample :
    num_frames cexParams ≠ round (tF cexParams * 60) := by
  have h60 : tF cexParams * 60 = 1440 / 7 := by norm_num [tF, xF, cexParams]
  have hr : round ((1440 : ℚ) / 7) = 206 := by
    rw [round_eq]
    exact Int.floor_eq_iff.mpr (by norm_num)
  rw [h60, hr, num_frames_cexParams]
  decide

/-- Claim C2 as amended: time = linspace(0, tF, N) with N = int(tF * 60)
(truncation, not rounding); for N ≥ 2 the time axis has length N, starts at
0.0, ends at tF, is strictly increasing, and N is within ±1 of
round(tF * 60). -/
theorem c2_time_axis (p : SimulationParams) (hv : 0 < p.vel)
    (hn : 2 ≤ num_frames p) :
    timeList p = linspace 0 (tF p) (num_frames p).toNat
    ∧ (timeList p).length = (num_frames p).toNat
    ∧ (timeList p).head? = some 0
    ∧ (timeList p).getLast? = some (tF p)
    ∧ List.Pairwise (· < ·) (timeList p)
    ∧ num_frames p = ⌊tF p * fR⌋
    ∧ |num_frames p - round (tF p * fR)| ≤ 1 := by
  have htF : 0 < tF p := by
    have : (0 : ℚ) < xF := by norm_num [xF]
    exact div_pos this hv
  have hn2 : 2 ≤ (num_frames p).toNat := by omega
  have hcast : (1 : ℚ) ≤ ((num_frames p).toNat : ℚ) - 1 := by
    have : (2 : ℚ) ≤ ((num_frames p).toNat : ℚ) := by exact_mod_cast hn2
    linarith
  have hstep : 0 < tF p / (((num_frames p).toNat : ℚ) - 1) :=
    div_pos htF (by linarith)
  have hfloor : num_frames p = ⌊tF p * fR⌋ := by
    have hpos : 0 ≤ tF p * fR := by
      have : (0 : ℚ) < fR := by norm_num [fR, playback_speed]
      positivity
    simp [num_frames, pyInt, hpos]
  have hpos' : 0 < (num_frames p).toNat := by omega
  refine ⟨rfl, ?_, ?_, ?_, ?_, hfloor, ?_⟩
  · simp only [timeList, linspace, List.length_map, List.length_range]
  · simp only [timeList, linspace]
    rw [head?_range_map _ hpos']
    norm_num
  · simp only [timeList, linspace]
    rw [getLast?_range_map _ hpos']
    congr 1
    have hne : ((num_frames p).toNat : ℚ) - 1 ≠ 0 := by linarith
    rw [Nat.cast_sub (by omega), Nat.cast_one, sub_zero, zero_add]
    field_simp
  · simp only [timeList, linspace]
    refine pairwise_range_map _ _ _ (fun i j hij hj => ?_)
    have hcij : (i : ℚ) < (j : ℚ) := by exact_mod_cast hij
    have := mul_lt_mul_of_pos_right hcij hstep
    simpa [sub_zero] using this
  · rw [hfloor, round_eq]
    have h1 : ⌊tF p * fR⌋ ≤ ⌊tF p * fR + 1 / 2⌋ :=
      Int.floor_le_floor (by linarith)
    have h2 : ⌊tF p * fR + 1 / 2⌋ ≤ ⌊tF p * fR⌋ + 1 := by
      have hle : ⌊tF p * fR + 1 / 2⌋ ≤ ⌊tF p * fR + 1⌋ :=
        Int.floor_le_floor (by linarith)
      rw [Int.floor_add_one] at hle
      exact hle
    rw [abs_le]
    omega

/-- Default slider parameters (simulation.py defaults, vel = 2). -/
def defaultParams : SimulationParams := ⟨1500, 150, 48000, 1000, 200000, 2⟩

theorem num_frames_defaultParams : num_frames defaultParams = 180 := by
  unfold num_frames
  have h : tF defaultParams * fR = 180 := by
    norm_num [tF, xF, fR, playback_speed, defaultParams]
  rw [h, pyInt, if_pos (by norm_num)]
  exact Int.floor_eq_iff.mpr (by norm_num)

/-- Witness for c2_time_axis at the default parameters (N = 180). -/
theorem c2_time_axis_witness :
    0 < defaultParams.vel ∧ 2 ≤ num_frames defaultParams ∧
      (timeList defaultParams).head? = some 0 ∧
      (timeList defaultParams).getLast? = some (tF defaultParams) :=
  ⟨by norm_num [defaultParams], by rw [num_frames_defaultParams]; norm_num,
    (c2_time_axis defaultParams (by norm_num [defaultParams])
      (by rw [num_frames_defaultParams]; norm_num)).2.2.1,
    (c2_time_axis defaultParams (by norm_num [defaultParams])
      (by rw [num_frames_defaultParams]; norm_num)).2.2.2.1⟩

/-! ### Road profile (generate_road_profile, simulation.py lines 43-68) -/

open Real in
/-- Bump radius (generate_road_profile, line 55). -/
noncomputable def R : ℝ := 0.10

/-- Flat section before the bump, x1 = np.arange(0, 1.2, 0.1) (line 51). -/
noncomputable def x1 : List ℝ := arange 0 1.2 0.1

/-- Heights of the flat section, z1 = np.zeros_like(x1) (line 52). -/
noncomputable def z1 : List ℝ := List.replicate x1.length 0

/-- Bump parameter angles, th = np.linspace(0, np.pi, 50) (line 56). -/
noncomputable def th : List ℝ := linspace 0 Real.pi 50

/-- Bump x coordinates, x2 = -R*cos(th) + 1.1 + R (line 57). -/
noncomputable def x2 : List ℝ := th.map (fun t => -R * Real.cos t + 1.1 + R)

/-- Bump heights, z2 = R*sin(th) (line 58). -/
noncomputable def z2 : List ℝ := th.map (fun t => R * Real.sin t)

/-- Flat section after the bump, x3 = np.arange(1.1+2R, 1.1+2R+5.1, 0.1)
(line 61). -/
noncomputable def x3 : List ℝ := arange (1.1 + 2 * R) (1.1 + 2 * R + 5.1) 0.1

/-- Heights after the bump, z3 = np.zeros_like(x3) (line 62). -/
noncomputable def z3 : List ℝ := List.replicate x3.length 0

/-- Road x coordinates, Xr = np.concatenate([x1, x2[1:], x3[1:]]) (line 65). -/
noncomputable def Xr : List ℝ := x1 ++ x2.tail ++ x3.tail

/-- Road heights, Zr = np.concatenate([z1, z2[1:], z3[1:]]) (line 66). -/
noncomputable def Zr : List ℝ := z1 ++ z2.tail ++ z3.tail

theorem x1_eq : x1 = (List.range 12).map (fun k : ℕ => 0 + (k : ℝ) * 0.1) := by
  unfold x1 arange
  have h : ((1.2 : ℝ) - 0) / 0.1 = 12 := by norm_num
  rw [h]
  norm_num
  rfl

theorem x3_eq : x3 = (List.range 51).map
    (fun k : ℕ => (1.1 + 2 * R) + (k : ℝ) * 0.1) := by
  unfold x3 arange
  have h : ((1.1 + 2 * R + 5.1 : ℝ) - (1.1 + 2 * R)) / 0.1 = 51 := by
    norm_num [R]
  rw [h]
  norm_num
  rfl

theorem th_eq : th = (List.range 50).map (fun k : ℕ => (k : ℝ) * (Real.pi / 49)) := by
  unfold th linspace
  refine List.map_congr_left (fun k _ => ?_)
  norm_num

theorem x2_eq : x2 = (List.range 50).map
    (fun k : ℕ => -R * Real.cos ((k : ℝ) * (Real.pi / 49)) + 1.1 + R) := by
  rw [x2, th_eq, List.map_map]
  rfl

theorem z2_eq : z2 = (List.range 50).map
    (fun k : ℕ => R * Real.sin ((k : ℝ) * (Real.pi / 49))) := by
  rw [z2, th_eq, List.map_map]
  rfl

theorem x2_tail_eq : x2.tail = (List.range 49).map
    (fun k : ℕ => -R * Real.cos (((k : ℝ) + 1) * (Real.pi / 49)) + 1.1 + R) := by
  rw [x2_eq]
  have h := tail_range_map
    (fun k : ℕ => -R * Real.cos ((k : ℝ) * (Real.pi / 49)) + 1.1 + R) 49
  rw [show (49 : ℕ) + 1 = 50 from rfl] at h
  rw [h]
  refine List.map_congr_left (fun k _ => ?_)
  push_cast
  ring_nf

theorem z2_tail_eq : z2.tail = (List.range 49).map
    (fun k : ℕ => R * Real.sin (((k : ℝ) + 1) * (Real.pi / 49))) := by
  rw [z2_eq]
  have h := tail_range_map
    (fun k : ℕ => R * Real.sin ((k : ℝ) * (Real.pi / 49))) 49
  rw [show (49 : ℕ) + 1 = 50 from rfl] at h
  rw [h]
  refine List.map_congr_left (fun k _ => ?_)
  push_cast
  ring_nf

theorem x3_tail_eq : x3.tail = (List.range 50).map
    (fun k : ℕ => (1.1 + 2 * R) + ((k : ℝ) + 1) * 0.1) := by
  rw [x3_eq]
  have h := tail_range_map
    (fun k : ℕ => (1.1 + 2 * R) + (k : ℝ) * 0.1) 50
  rw [show (50 : ℕ) + 1 = 51 from rfl] at h
  rw [h]
  refine List.map_congr_left (fun k _ => ?_)
  push_cast
  ring_nf

/-- Angles (k+1)·π/49 for k < 49 lie in (0, π]. -/
theorem bump_angle_mem {k : ℕ} (hk : k < 49) :
    0 < ((k : ℝ) + 1) * (Real.pi / 49) ∧ ((k : ℝ) + 1) * (Real.pi / 49) ≤ Real.pi := by
  have hπ := Real.pi_pos
  constructor
  · positivity
  · have hk1 : ((k : ℝ) + 1) ≤ 49 := by
      have : (k : ℝ) ≤ 48 := by exact_mod_cast Nat.le_of_lt_succ hk
      linarith
    have h49 : (0 : ℝ) < Real.pi / 49 := by positivity
    calc ((k : ℝ) + 1) * (Real.pi / 49) ≤ 49 * (Real.pi / 49) := by
          exact mul_le_mul_of_nonneg_right hk1 (le_of_lt h49)
      _ = Real.pi := by field_simp

theorem x1_length : x1.length = 12 := by rw [x1_eq]; simp

theorem x3_length : x3.length = 51 := by rw [x3_eq]; simp

theorem x1_pairwise : List.Pairwise (· < ·) x1 := by
  rw [x1_eq]
  refine pairwise_range_map _ _ _ (fun i j hij hj => ?_)
  have hc : (i : ℝ) < (j : ℝ) := by exact_mod_cast hij
  have := mul_lt_mul_of_pos_right hc (show (0 : ℝ) < 0.1 by norm_num)
  linarith

theorem x2_tail_pairwise : List.Pairwise (· < ·) x2.tail := by
  rw [x2_tail_eq]
  refine pairwise_range_map _ _ _ (fun i j hij hj => ?_)
  have hi49 : i < 49 := lt_trans hij hj
  have hp : (0 : ℝ) < Real.pi / 49 := div_pos Real.pi_pos (by norm_num)
  have hij' : ((i : ℝ) + 1) < ((j : ℝ) + 1) := by
    have : (i : ℝ) < (j : ℝ) := by exact_mod_cast hij
    linarith
  have hlt := mul_lt_mul_of_pos_right hij' hp
  have h0 : 0 ≤ ((i : ℝ) + 1) * (Real.pi / 49) := le_of_lt (bump_angle_mem hi49).1
  have hπ : ((j : ℝ) + 1) * (Real.pi / 49) ≤ Real.pi := (bump_angle_mem hj).2
  have hcos := Real.cos_lt_cos_of_nonneg_of_le_pi h0 hπ hlt
  have hR : (0 : ℝ) < R := by norm_num [R]
  have := mul_lt_mul_of_pos_left hcos hR
  linarith

theorem x3_tail_pairwise : List.Pairwise (· < ·) x3.tail := by
  rw [x3_tail_eq]
  refine pairwise_range_map _ _ _ (fun i j hij hj => ?_)
  have hc : ((i : ℝ) + 1) < ((j : ℝ) + 1) := by
    have : (i : ℝ) < (j : ℝ) := by exact_mod_cast hij
    linarith
  have := mul_lt_mul_of_pos_right hc (show (0 : ℝ) < 0.1 by norm_num)
  linarith

theorem mem_x1_le {v : ℝ} (hv : v ∈ x1) : v ≤ 1.1 := by
  rw [x1_eq] at hv
  obtain ⟨k, hk, rfl⟩ := List.mem_map.mp hv
  have hk12 : k < 12 := List.mem_range.mp hk
  have hc : (k : ℝ) ≤ 11 := by exact_mod_cast Nat.le_of_lt_succ hk12
  have := mul_le_mul_of_nonneg_right hc (show (0 : ℝ) ≤ 0.1 by norm_num)
  linarith

theorem mem_x2_tail_bounds {v : ℝ} (hv : v ∈ x2.tail) : 1.1 < v ∧ v ≤ 1.3 := by
  rw [x2_tail_eq] at hv
  obtain ⟨k, hk, rfl⟩ := List.mem_map.mp hv
  have hk49 : k < 49 := List.mem_range.mp hk
  obtain ⟨hθ0, hθπ⟩ := bump_angle_mem hk49
  have hcos1 : Real.cos (((k : ℝ) + 1) * (Real.pi / 49)) < 1 := by
    have := Real.cos_lt_cos_of_nonneg_of_le_pi (le_refl 0) hθπ hθ0
    rwa [Real.cos_zero] at this
  have hcosm1 := Real.neg_one_le_cos (((k : ℝ) + 1) * (Real.pi / 49))
  constructor
  · norm_num [R]
    linarith
  · norm_num [R]
    linarith

theorem mem_x3_tail_ge {v : ℝ} (hv : v ∈ x3.tail) : 1.4 ≤ v := by
  rw [x3_tail_eq] at hv
  obtain ⟨k, hk, rfl⟩ := List.mem_map.mp hv
  have hc : (0 : ℝ) ≤ (k : ℝ) := Nat.cast_nonneg k
  have := mul_le_mul_of_nonneg_right hc (show (0 : ℝ) ≤ 0.1 by norm_num)
  norm_num [R]
  linarith

theorem Xr_pairwise : List.Pairwise (· < ·) Xr := by
  rw [Xr, List.append_assoc, List.pairwise_append]
  refine ⟨x1_pairwise, ?_, ?_⟩
  · rw [List.pairwise_append]
    refine ⟨x2_tail_pairwise, x3_tail_pairwise, fun u hu v hv => ?_⟩
    calc u ≤ 1.3 := (mem_x2_tail_bounds hu).2
      _ < 1.4 := by norm_num
      _ ≤ v := mem_x3_tail_ge hv
  · intro u hu v hv
    rcases List.mem_append.mp hv with h2 | h3
    · exact lt_of_le_of_lt (mem_x1_le hu) (mem_x2_tail_bounds h2).1
    · calc u ≤ 1.1 := mem_x1_le hu
        _ < 1.4 := by norm_num
        _ ≤ v := mem_x3_tail_ge h3

theorem x1_ne_nil : x1 ≠ [] :=
  List.ne_nil_of_length_pos (by rw [x1_length]; norm_num)

theorem x1_head : x1.head? = some 0 := by
  rw [x1_eq, head?_range_map _ (by norm_num)]
  norm_num

theorem x1_last : x1.getLast? = some 1.1 := by
  rw [x1_eq, getLast?_range_map _ (by norm_num)]
  norm_num

theorem x2_head : x2.head? = some 1.1 := by
  rw [x2_eq, head?_range_map _ (by norm_num)]
  norm_num [R, Real.cos_zero]

theorem x2_last : x2.getLast? = some 1.3 := by
  rw [x2_eq, getLast?_range_map _ (by norm_num)]
  have h49 : ((50 - 1 : ℕ) : ℝ) * (Real.pi / 49) = Real.pi := by
    norm_num
    field_simp
  rw [h49, Real.cos_pi]
  norm_num [R]

theorem x3_head : x3.head? = some 1.3 := by
  rw [x3_eq, head?_range_map _ (by norm_num)]
  norm_num [R]

theorem Xr_head : Xr.head? = some 0 := by
  rw [Xr, List.append_assoc, List.head?_append_of_ne_nil _ x1_ne_nil, x1_head]

theorem z1_eq : z1 = List.replicate 12 (0 : ℝ) := by rw [z1, x1_length]

theorem z1_ne_nil : z1 ≠ [] := by rw [z1_eq]; simp

theorem Zr_head : Zr.head? = some 0 := by
  rw [Zr, List.append_assoc, List.head?_append_of_ne_nil _ z1_ne_nil, z1_eq]
  rfl

theorem z3_tail_eq : z3.tail = List.replicate 50 (0 : ℝ) := by
  rw [z3, x3_length]
  rfl

theorem z3_tail_ne_nil : z3.tail ≠ [] := by rw [z3_tail_eq]; simp

theorem Zr_last : Zr.getLast? = some 0 := by
  rw [Zr, List.getLast?_append_of_ne_nil _ z3_tail_ne_nil, z3_tail_eq,
    List.getLast?_eq_getElem?]
  simp

theorem cos_pi_div_98_ge : (0.99 : ℝ) ≤ Real.cos (Real.pi / 98) := by
  have h := Real.one_sub_sq_div_two_le_cos (x := Real.pi / 98)
  have h4 : Real.pi ≤ 4 := Real.pi_le_four
  have h0 : 0 ≤ Real.pi := Real.pi_nonneg
  have hle : Real.pi / 98 ≤ 4 / 98 := by linarith
  have hsq : (Real.pi / 98) ^ 2 ≤ ((4 : ℝ) / 98) ^ 2 :=
    pow_le_pow_left₀ (by positivity) hle 2
  have hval : ((4 : ℝ) / 98) ^ 2 = 16 / 9604 := by norm_num
  rw [hval] at hsq
  linarith

theorem apex_facts : ∃ zv ∈ Zr, 0 < zv ∧ |zv - 0.1| ≤ 1 / 1000 := by
  refine ⟨R * Real.sin ((((23 : ℕ) : ℝ) + 1) * (Real.pi / 49)), ?_, ?_⟩
  · simp only [Zr]
    refine List.mem_append.mpr (Or.inl ?_)
    refine List.mem_append.mpr (Or.inr ?_)
    rw [z2_tail_eq]
    exact List.mem_map.mpr ⟨23, List.mem_range.mpr (by norm_num), rfl⟩
  · have h24 : (((23 : ℕ) : ℝ) + 1) = 24 := by norm_num
    rw [h24]
    have hc : Real.sin ((24 : ℝ) * (Real.pi / 49)) = Real.cos (Real.pi / 98) := by
      rw [← Real.cos_pi_div_two_sub]
      congr 1
      ring
    rw [hc]
    have h1 := cos_pi_div_98_ge
    have h2 := Real.cos_le_one (Real.pi / 98)
    constructor
    · norm_num [R]
      linarith
    · rw [abs_le]
      constructor
      · norm_num [R]
        linarith
      · norm_num [R]
        linarith

theorem Zr_le : ∀ zv ∈ Zr, zv ≤ 0.1 := by
  intro zv hzv
  simp only [Zr] at hzv
  rcases List.mem_append.mp hzv with h12 | h3
  · rcases List.mem_append.mp h12 with h1 | h2
    · have h0 : zv = 0 := List.eq_of_mem_replicate (by rwa [z1_eq] at h1)
      norm_num [h0]
    · rw [z2_tail_eq] at h2
      obtain ⟨k, hk, rfl⟩ := List.mem_map.mp h2
      have hsin := Real.sin_le_one (((k : ℝ) + 1) * (Real.pi / 49))
      norm_num [R]
      linarith
  · have h3' : zv ∈ z3 := List.mem_of_mem_tail h3
    have h0 : zv = 0 := List.eq_of_mem_replicate (by
      rwa [z3, x3_length] at h3')
    norm_num [h0]

/-- Claim C8: the generated road profile has strictly increasing road_x,
first point (0,0), a bump sample of height within 0.001 of 0.10 (and all
heights at most 0.10), last height 0, and the three sections are
concatenated dropping the duplicated shared boundary points (the dropped
head of each later section equals the last point of the section before). -/
theorem c8_road_profile :
    List.Pairwise (· < ·) Xr
    ∧ Xr.head? = some 0
    ∧ Zr.head? = some 0
    ∧ (∃ zv ∈ Zr, 0 < zv ∧ |zv - 0.1| ≤ 1 / 1000)
    ∧ (∀ zv ∈ Zr, zv ≤ 0.1)
    ∧ Zr.getLast? = some 0
    ∧ Xr = x1 ++ x2.tail ++ x3.tail
    ∧ x2.head? = x1.getLast?
    ∧ x3.head? = x2.getLast? := by
  refine ⟨Xr_pairwise, Xr_head, Zr_head, apex_facts, Zr_le, Zr_last, rfl, ?_, ?_⟩
  · rw [x2_head, x1_last]
  · rw [x3_head, x2_last]

/-! ### Road input interpolation and claim C7 -/

/-- numpy.interp over a list of (knot, value) pairs: piecewise-linear
interpolation with clamping to the first/last value outside the domain. -/
def interpSeg {α : Type} [LinearOrderedField α] (x : α) : List (α × α) → α
  | [] => 0
  | [(_, fa)] => fa
  | (xa, fa) :: (xb, fb) :: rest =>
    if x ≤ xa then fa
    else if x ≤ xb then fa + (fb - fa) * (x - xa) / (xb - xa)
    else interpSeg x ((xb, fb) :: rest)

/-- Road input sample u(x) = np.interp(x, road_x, road_z)
(run_simulation, line 131). -/
noncomputable def interpRoad (x : ℝ) : ℝ := interpSeg x (Xr.zip Zr)

theorem interpSeg_head_le {α : Type} [LinearOrderedField α] (x xa fa : α)
    (rest : List (α × α)) (h : x ≤ xa) :
    interpSeg x ((xa, fa) :: rest) = fa := by
  cases rest with
  | nil => rfl
  | cons hd tl =>
    obtain ⟨xb, fb⟩ := hd
    simp only [interpSeg]
    rw [if_pos h]

theorem interpSeg_zip_head {α : Type} [LinearOrderedField α] (x : α)
    (xs fs : List α) (x0 f0 : α) (hx : xs.head? = some x0)
    (hf : fs.head? = some f0) (h : x ≤ x0) :
    interpSeg x (xs.zip fs) = f0 := by
  cases xs with
  | nil => simp at hx
  | cons xa xt =>
    cases fs with
    | nil => simp at hf
    | cons fa ft =>
      simp only [List.head?_cons, Option.some.injEq] at hx hf
      subst hx
      subst hf
      rw [List.zip_cons_cons]
      exact interpSeg_head_le x _ _ _ h

theorem interpRoad_zero : interpRoad 0 = 0 :=
  interpSeg_zip_head 0 Xr Zr 0 0 Xr_head Zr_head (le_refl 0)

/-- Models the first output sample of scipy.signal.lsim: with sample times
starting at t[0] = 0 and initial state x0 (zero when X0 is omitted, as in
run_simulation line 134), the first output row is y[0] = C x0 + D u[0]. -/
def lsim_y0 (Cm : Matrix (Fin 2) (Fin 4) ℚ) (Dm : Matrix (Fin 2) (Fin 1) ℚ)
    (x0 : Fin 4 → ℝ) (u0 : ℝ) : Fin 2 → ℝ :=
  fun j => (∑ k, (Cm j k : ℝ) * x0 k) + (Dm j 0 : ℝ) * u0

/-- First sample of z_u: y[0][0] + L0_u (run_simulation, lines 134 and 137). -/
noncomputable def z_u_sample0 : ℝ :=
  lsim_y0 Cmat Dmat (fun _ => 0) (interpRoad 0) 0 + (L0_u : ℝ)

/-- First sample of z_s: y[0][1] + L0_u + L0_s (lines 134 and 138). -/
noncomputable def z_s_sample0 : ℝ :=
  lsim_y0 Cmat Dmat (fun _ => 0) (interpRoad 0) 1 + (L0_u : ℝ) + (L0_s : ℝ)

/-- Claim C7: at the first sample, lon[0] = 0, the road input u[0] is the
road height at x = 0 (which is 0 by construction), and the offset outputs
start at their rest heights z_u[0] = L0_u and z_s[0] = L0_u + L0_s. -/
theorem c7_initial_rest (p : SimulationParams) (hn : 1 ≤ num_frames p) :
    (lonList p).head? = some 0
    ∧ interpRoad 0 = 0
    ∧ z_u_sample0 = (L0_u : ℝ)
    ∧ z_s_sample0 = (L0_u : ℝ) + (L0_s : ℝ) := by
  refine ⟨?_, interpRoad_zero, ?_, ?_⟩
  · rw [lonList, List.head?_map, timeList, linspace,
      head?_range_map _ (by omega)]
    simp
  · unfold z_u_sample0 lsim_y0
    simp [Cmat, Dmat]
  · unfold z_s_sample0 lsim_y0
    simp [Cmat, Dmat]

/-- Witness for c7_initial_rest at the default parameters. -/
theorem c7_initial_rest_witness :
    1 ≤ num_frames defaultParams ∧ z_u_sample0 = (L0_u : ℝ) :=
  ⟨by rw [num_frames_defaultParams]; norm_num,
    (c7_initial_rest defaultParams
      (by rw [num_frames_defaultParams]; norm_num)).2.2.1⟩

/-! ### Plotting module (plotting.py) -/

/-- Normalized tire stiffness, kt_norm = min(max((Kt - 5e4)/(5e5 - 5e4), 0), 1)
(get_spring_color, line 25). -/
def kt_norm (Kt : ℚ) : ℚ := min (max ((Kt - 50000) / (500000 - 50000)) 0) 1

/-- Spring color (r, g, b) from tire stiffness (get_spring_color, lines 25-28):
r = int((1 - kt_norm) * 255), g = 0, b = int(kt_norm * 255). -/
def get_spring_color (Kt : ℚ) : ℤ × ℤ × ℤ :=
  (pyInt ((1 - kt_norm Kt) * 255), 0, pyInt (kt_norm Kt * 255))

/-- Spring zig-zag coordinates (create_spring_trace, lines 31-76). -/
def create_spring_trace {α : Type} [Field α] (x_center z_bottom z_top L0 : α)
    (width : α) : List α × List α :=
  let rod_pct : α := 0.15
  let spring_pct : α := 0.5
  let L := (z_top - z_bottom) - 2 * rod_pct * L0
  ([x_center, x_center, x_center + width, x_center - width, x_center + width,
    x_center - width, x_center, x_center],
   [z_bottom, z_bottom + rod_pct * L0, z_bottom + rod_pct * L0,
    z_bottom + rod_pct * L0 + spring_pct * L,
    z_bottom + rod_pct * L0 + spring_pct * L,
    z_bottom + rod_pct * L0 + 2 * spring_pct * L,
    z_bottom + rod_pct * L0 + 2 * spring_pct * L,
    z_bottom + 2 * rod_pct * L0 + 2 * spring_pct * L])

/-- Damper component coordinates (create_damper_traces, lines 79-129). -/
def create_damper_traces {α : Type} [Field α] (x_center z_bottom z_top L0 : α) :
    List (List α × List α) :=
  let rod_lower_pct : α := 0.1
  let rod_upper_pct : α := 0.4
  let cyl_pct : α := 0.4
  let w : α := 0.05
  [([x_center, x_center], [z_bottom, z_bottom + rod_lower_pct * L0]),
   ([x_center - w, x_center - w, x_center + w, x_center + w],
    [z_bottom + rod_lower_pct * L0 + cyl_pct * L0,
     z_bottom + rod_lower_pct * L0,
     z_bottom + rod_lower_pct * L0,
     z_bottom + rod_lower_pct * L0 + cyl_pct * L0]),
   ([x_center, x_center], [z_top, z_top - rod_upper_pct * L0]),
   ([x_center - 0.8 * w, x_center + 0.8 * w],
    [z_top - rod_upper_pct * L0, z_top - rod_upper_pct * L0])]

/-! ### Claim C9: the tire-spring color map -/

theorem pyInt_eq (q : ℚ) (n : ℤ) (h0 : 0 ≤ q) (h1 : (n : ℚ) ≤ q)
    (h2 : q < n + 1) : pyInt q = n := by
  rw [pyInt, if_pos h0]
  exact Int.floor_eq_iff.mpr ⟨h1, h2⟩

theorem color_of_norm_zero {kt : ℚ} (h : kt_norm kt = 0) :
    get_spring_color kt = (255, 0, 0) := by
  rw [get_spring_color, h]
  have h255 : pyInt ((1 - 0) * 255) = 255 :=
    pyInt_eq _ 255 (by norm_num) (by norm_num) (by norm_num)
  have hz : pyInt ((0 : ℚ) * 255) = 0 :=
    pyInt_eq _ 0 (by norm_num) (by norm_num) (by norm_num)
  rw [h255, hz]

theorem color_of_norm_one {kt : ℚ} (h : kt_norm kt = 1) :
    get_spring_color kt = (0, 0, 255) := by
  rw [get_spring_color, h]
  have h255 : pyInt ((1 : ℚ) * 255) = 255 :=
    pyInt_eq _ 255 (by norm_num) (by norm_num) (by norm_num)
  have hz : pyInt ((1 - 1 : ℚ) * 255) = 0 :=
    pyInt_eq _ 0 (by norm_num) (by norm_num) (by norm_num)
  rw [h255, hz]

theorem kt_norm_of_le {kt : ℚ} (h : kt ≤ 50000) : kt_norm kt = 0 := by
  rw [kt_norm]
  have hd : (kt - 50000) / (500000 - 50000) ≤ 0 := by
    apply div_nonpos_of_nonpos_of_nonneg <;> linarith
  rw [max_eq_right hd]
  norm_num

theorem kt_norm_of_ge {kt : ℚ} (h : 500000 ≤ kt) : kt_norm kt = 1 := by
  rw [kt_norm]
  have hd : (1 : ℚ) ≤ (kt - 50000) / (500000 - 50000) := by
    rw [le_div_iff₀ (by norm_num)]
    linarith
  rw [max_eq_left (by linarith)]
  exact min_eq_right hd

/-- Claim C9: the tire-spring color map sends Kt = 50000 to pure red,
Kt = 500000 to pure blue, Kt = 275000 to (127, 0, 127), which is within one
unit of the claimed midpoint (128, 0, 127), and clamps every Kt outside
[50000, 500000] to the nearest endpoint color. -/
theorem c9_spring_color :
    get_spring_color 50000 = (255, 0, 0)
    ∧ get_spring_color 500000 = (0, 0, 255)
    ∧ get_spring_color 275000 = (127, 0, 127)
    ∧ |(get_spring_color 275000).1 - 128| ≤ 1
    ∧ |(get_spring_color 275000).2.2 - 127| ≤ 1
    ∧ (∀ kt : ℚ, kt ≤ 50000 → get_spring_color kt = (255, 0, 0))
    ∧ (∀ kt : ℚ, 500000 ≤ kt → get_spring_color kt = (0, 0, 255)) := by
  have hmid : get_spring_color 275000 = (127, 0, 127) := by
    have hk : kt_norm 275000 = 1 / 2 := by
      rw [kt_norm]
      norm_num
    rw [get_spring_color, hk]
    have hr : pyInt ((1 - 1 / 2) * 255) = 127 :=
      pyInt_eq _ 127 (by norm_num) (by norm_num) (by norm_num)
    have hb : pyInt ((1 / 2 : ℚ) * 255) = 127 :=
      pyInt_eq _ 127 (by norm_num) (by norm_num) (by norm_num)
    rw [hr, hb]
  refine ⟨color_of_norm_zero (kt_norm_of_le (le_refl _)),
    color_of_norm_one (kt_norm_of_ge (le_refl _)), hmid, ?_, ?_,
    fun kt h => color_of_norm_zero (kt_norm_of_le h),
    fun kt h => color_of_norm_one (kt_norm_of_ge h)⟩
  · rw [hmid]
    norm_num
  · rw [hmid]
    norm_num

/-- Witness for the quantified clamping clauses of c9_spring_color. -/
theorem c9_spring_color_witness :
    (40000 : ℚ) ≤ 50000 ∧ (500000 : ℚ) ≤ 600000 ∧
      get_spring_color 40000 = (255, 0, 0) ∧
      get_spring_color 600000 = (0, 0, 255) :=
  ⟨by norm_num, by norm_num,
    c9_spring_color.2.2.2.2.2.1 40000 (by norm_num),
    c9_spring_color.2.2.2.2.2.2 600000 (by norm_num)⟩

/-! ### Claim C6: the zig-zag spring geometry -/

/-- Claim C6: for any spring drawn by create_spring_trace, the lower rod has
height 0.15*L0, the coil length is (z_top - z_bottom) - 2*0.15*L0, split
into two equal zig segments of half that length, the coil vertices
alternate between x_center + width and x_center - width, the upper rod also
has height 0.15*L0, and the polyline runs from height z_bottom to z_top. -/
theorem c6_spring_geometry {α : Type} [LinearOrderedField α]
    (x_center z_bottom z_top L0 width : α) :
    (create_spring_trace x_center z_bottom z_top L0 width).2.getD 0 0 = z_bottom
    ∧ (create_spring_trace x_center z_bottom z_top L0 width).2.getD 1 0 -
        (create_spring_trace x_center z_bottom z_top L0 width).2.getD 0 0 =
        0.15 * L0
    ∧ (create_spring_trace x_center z_bottom z_top L0 width).2.getD 3 0 -
        (create_spring_trace x_center z_bottom z_top L0 width).2.getD 2 0 =
        0.5 * ((z_top - z_bottom) - 2 * 0.15 * L0)
    ∧ (create_spring_trace x_center z_bottom z_top L0 width).2.getD 5 0 -
        (create_spring_trace x_center z_bottom z_top L0 width).2.getD 4 0 =
        0.5 * ((z_top - z_bottom) - 2 * 0.15 * L0)
    ∧ (create_spring_trace x_center z_bottom z_top L0 width).2.getD 5 0 -
        (create_spring_trace x_center z_bottom z_top L0 width).2.getD 2 0 =
        (z_top - z_bottom) - 2 * 0.15 * L0
    ∧ (create_spring_trace x_center z_bottom z_top L0 width).1 =
        [x_center, x_center, x_center + width, x_center - width,
         x_center + width, x_center - width, x_center, x_center]
    ∧ (create_spring_trace x_center z_bottom z_top L0 width).2.getD 7 0 -
        (create_spring_trace x_center z_bottom z_top L0 width).2.getD 6 0 =
        0.15 * L0
    ∧ (create_spring_trace x_center z_bottom z_top L0 width).2.getD 7 0 = z_top
    := by
  simp only [create_spring_trace, List.getD_cons_zero, List.getD_cons_succ]
  refine ⟨trivial, by ring, by ring, by ring, by ring, trivial, by ring, by ring⟩

/-! ### Simulation result and animation frames -/

/-- Result bundle of the simulation (simulation.py, SimulationResult),
generic in the numeric type. -/
structure SimulationResult (α : Type) where
  time : List α
  z_s : List α
  z_u : List α
  u : List α
  lon : List α
  road_x : List α
  road_z : List α
  L0_s : α
  L0_u : α
  h_s : α
  h_u : α
  a : α
  Kt : α
deriving DecidableEq

/-- Python/numpy indexing of a list by an int: negative indices address from
the end; an out-of-range index raises IndexError. -/
def pyIdx {α : Type} (xs : List α) (i : ℤ) : Except Unit α :=
  let j : ℤ := if i < 0 then i + xs.length else i
  if h : 0 ≤ j ∧ j < (xs.length : ℤ) then Except.ok (xs.get ⟨j.toNat, by omega⟩)
  else Except.error ()

/-- Index range selected by create_animation_frame's mask logic (lines
160-164): idx_start = max(0, idx_first - 1) with idx_first = np.argmax of
the mask (first true index), idx_end = min(len, idx_last + 2) with
idx_last the last true index (argmax over the reversed mask). -/
def window_range {α : Type} (l : List α) (P : α → Bool) : ℕ × ℕ :=
  let idx_first := l.findIdx P
  let idx_last := l.length - 1 - l.reverse.findIdx P
  (idx_first - 1, min l.length (idx_last + 2))

/-- Visible road window (create_animation_frame, lines 149-171): extend the
road with sentinel points at x = -10 and x = 100 (height 0), select the run
of points from the first to the last one inside
[x_inst - l_win, x_inst + l_win] with l_win = 2 (np.argmax over the mask
and over its reverse), widen by one index on each side clamped to the
array, and slice; fall back to a flat two-point segment when no point is in
range. -/
def roadWindow {α : Type} [LinearOrderedField α] (road_x road_z : List α)
    (x_inst : α) : List α × List α :=
  let l_win : α := 2
  let x_min := x_inst - l_win
  let x_max := x_inst + l_win
  let rxe : List α := -10 :: (road_x ++ [100])
  let rze : List α := 0 :: (road_z ++ [0])
  let p : α → Bool := fun x => decide (x_min ≤ x) && decide (x ≤ x_max)
  if rxe.any p then
    let r := window_range rxe p
    ((rxe.drop r.1).take (r.2 - r.1), (rze.drop r.1).take (r.2 - r.1))
  else ([x_min, x_max], [0, 0])

/-- Geometry of one animation frame: the traces built by
create_animation_frame (plotting.py, lines 132-309). -/
structure Frame (α : Type) where
  road_view : List α × List α
  sprung : List α × List α
  unsprung : List α × List α
  tire_spring : List α × List α
  susp_spring : List α × List α
  damper : List (List α × List α)
  contact : α × α
  t_label : α
  x_range : α × α
  y_range : α × α
deriving DecidableEq

/-- Frame construction (create_animation_frame, lines 132-309): index the
result arrays at frame_idx (numpy indexing), window the road, and build the
mass boxes, springs, damper and contact marker. -/
def create_animation_frame {α : Type} [LinearOrderedField α]
    (result : SimulationResult α) (frame_idx : ℤ) :
    Except Unit (Frame α) := do
  let x_inst ← pyIdx result.lon frame_idx
  let l_win : α := 2
  let road_view := roadWindow result.road_x result.road_z x_inst
  let zs_i ← pyIdx result.z_s frame_idx
  let zu_i ← pyIdx result.z_u frame_idx
  let u_i ← pyIdx result.u frame_idx
  let t_i ← pyIdx result.time frame_idx
  pure
    { road_view := road_view
      sprung := ([x_inst - result.a / 2, x_inst + result.a / 2,
                  x_inst + result.a / 2, x_inst - result.a / 2,
                  x_inst - result.a / 2],
                 [zs_i, zs_i, zs_i + result.h_s, zs_i + result.h_s, zs_i])
      unsprung := ([x_inst - result.a / 2, x_inst + result.a / 2,
                    x_inst + result.a / 2, x_inst - result.a / 2,
                    x_inst - result.a / 2],
                   [zu_i, zu_i, zu_i + result.h_u, zu_i + result.h_u, zu_i])
      tire_spring := create_spring_trace x_inst u_i zu_i result.L0_u 0.1
      susp_spring := create_spring_trace (x_inst - 0.2) (zu_i + result.h_u)
        zs_i result.L0_s 0.1
      damper := create_damper_traces (x_inst + 0.2) (zu_i + result.h_u)
        zs_i result.L0_s
      contact := (x_inst, u_i)
      t_label := t_i
      x_range := (x_inst - l_win / 2, x_inst + l_win / 2)
      y_range := (-0.1, -0.1 + l_win) }

/-- Road window as the specification words it in claim C3: the minimal
contiguous index range of the sentinel-extended profile whose x-extent
covers [x_inst - 1, x_inst + 1] (from the last point at or below the lower
end to the first point at or above the upper end), plus one guard point on
each side. -/
def specRoadWindow {α : Type} [LinearOrderedField α] (road_x road_z : List α)
    (x_inst : α) : List α × List α :=
  let lo := x_inst - 1
  let hi := x_inst + 1
  let rxe : List α := -10 :: (road_x ++ [100])
  let rze : List α := 0 :: (road_z ++ [0])
  let s0 := rxe.length - 1 - rxe.reverse.findIdx (fun x => decide (x ≤ lo))
  let e0 := rxe.findIdx (fun x => decide (hi ≤ x))
  ((rxe.drop (s0 - 1)).take (e0 + 2 - (s0 - 1)),
   (rze.drop (s0 - 1)).take (e0 + 2 - (s0 - 1)))

/-- Concrete two-sample result used to exercise frame indexing. -/
def exampleResult : SimulationResult ℚ :=
  { time := [0, 1/2]
    z_s := [7/10, 7/10]
    z_u := [3/10, 3/10]
    u := [0, 0]
    lon := [0, 1]
    road_x := [0, 1, 2]
    road_z := [0, 0, 0]
    L0_s := 0.4
    L0_u := 0.3
    h_s := 0.2
    h_u := 0.1
    a := 0.8
    Kt := 200000 }

/-- Concrete one-sample result over a road sampled at 0, 1, 2, 3, 4 with
the vehicle at lon = 2. -/
def exampleResult3 : SimulationResult ℚ :=
  { time := [0]
    z_s := [7/10]
    z_u := [3/10]
    u := [0]
    lon := [2]
    road_x := [0, 1, 2, 3, 4]
    road_z := [0, 0, 0, 0, 0]
    L0_s := 0.4
    L0_u := 0.3
    h_s := 0.2
    h_u := 0.1
    a := 0.8
    Kt := 200000 }

/-! ### Claim C5: frame index contract -/

theorem pyIdx_eq_ok {α : Type} (xs : List α) (i : ℤ)
    (h : -(xs.length : ℤ) ≤ i ∧ i < (xs.length : ℤ)) :
    ∃ v, pyIdx xs i = Except.ok v := by
  simp only [pyIdx]
  split_ifs with h1 h2 h3
  · exact ⟨_, rfl⟩
  · exfalso
    omega
  · exact ⟨_, rfl⟩
  · exfalso
    omega

theorem pyIdx_eq_error {α : Type} (xs : List α) (i : ℤ)
    (h : ¬(-(xs.length : ℤ) ≤ i ∧ i < (xs.length : ℤ))) :
    pyIdx xs i = Except.error () := by
  simp only [pyIdx]
  split_ifs with h1 h2 h3
  · exfalso
    omega
  · rfl
  · exfalso
    omega
  · rfl

/-- Claim C5 as amended: with consistent result arrays, frame construction
fails with IndexError iff the index is outside [-len, len): numpy indexing
accepts negative indices within one length (wrapping from the end) rather
than failing, and succeeds on every index in that wider range. -/
theorem c5_index_contract {α : Type} [LinearOrderedField α]
    (r : SimulationResult α) (i : ℤ)
    (hlon : r.lon.length = r.time.length)
    (hzs : r.z_s.length = r.time.length)
    (hzu : r.z_u.length = r.time.length)
    (hu : r.u.length = r.time.length) :
    (create_animation_frame r i).isOk = true ↔
      -(r.time.length : ℤ) ≤ i ∧ i < (r.time.length : ℤ) := by
  by_cases hc : -(r.time.length : ℤ) ≤ i ∧ i < (r.time.length : ℤ)
  · obtain ⟨v1, hv1⟩ := pyIdx_eq_ok r.lon i (by omega)
    obtain ⟨v2, hv2⟩ := pyIdx_eq_ok r.z_s i (by omega)
    obtain ⟨v3, hv3⟩ := pyIdx_eq_ok r.z_u i (by omega)
    obtain ⟨v4, hv4⟩ := pyIdx_eq_ok r.u i (by omega)
    obtain ⟨v5, hv5⟩ := pyIdx_eq_ok r.time i (by omega)
    refine iff_of_true ?_ hc
    simp only [create_animation_frame, hv1, hv2, hv3, hv4, hv5]
    rfl
  · have hv1 : pyIdx r.lon i = Except.error () := pyIdx_eq_error _ _ (by omega)
    have hred : create_animation_frame r i = Except.error () := by
      simp only [create_animation_frame, hv1]
      rfl
    rw [hred]
    simpa [Except.isOk, Except.toBool] using hc

/-- Claim C5 fails as stated: frame(result, -1) succeeds although -1 is
outside [0, len(result.time)) (numpy wraps negative indices). -/
theorem c5_counterexample :
    (create_animation_frame exampleResult (-1)).isOk = true
    ∧ ¬(0 ≤ (-1 : ℤ)) := ⟨rfl, by norm_num⟩

/-- Witness for c5_index_contract at the example result. -/
theorem c5_index_contract_witness :
    (create_animation_frame exampleResult (-1)).isOk = true ↔
      -(exampleResult.time.length : ℤ) ≤ -1 ∧
        (-1 : ℤ) < (exampleResult.time.length : ℤ) :=
  c5_index_contract exampleResult (-1) rfl rfl rfl rfl

/-! ### First/last index of the points matching a mask (np.argmax idiom) -/

theorem revIdx_lt {α : Type} (l : List α) (p : α → Bool)
    (hany : l.any p = true) : l.reverse.findIdx p < l.length := by
  obtain ⟨x, hx, hpx⟩ := List.any_eq_true.mp hany
  have : l.reverse.findIdx p < l.reverse.length :=
    List.findIdx_lt_length_of_exists ⟨x, List.mem_reverse.mpr hx, hpx⟩
  simpa using this

theorem p_last_true {α : Type} (l : List α) (p : α → Bool)
    (hany : l.any p = true)
    (h : l.length - 1 - l.reverse.findIdx p < l.length) :
    p (l.get ⟨l.length - 1 - l.reverse.findIdx p, h⟩) = true := by
  have hr := revIdx_lt l p hany
  have hrl : l.reverse.findIdx p < l.reverse.length := by simpa using hr
  have hp := @List.findIdx_getElem _ p l.reverse hrl
  rw [List.getElem_reverse] at hp
  simpa [List.get_eq_getElem] using hp

theorem p_false_after {α : Type} (l : List α) (p : α → Bool)
    (hany : l.any p = true) {j : ℕ} (hj : j < l.length)
    (hgt : l.length - 1 - l.reverse.findIdx p < j) :
    p (l.get ⟨j, hj⟩) = false := by
  have hr := revIdx_lt l p hany
  have hj' : l.length - 1 - j < l.reverse.findIdx p := by omega
  have hnp := List.not_of_lt_findIdx hj'
  rw [List.getElem_reverse] at hnp
  have hidx : l.length - 1 - (l.length - 1 - j) = j := by omega
  simp only [hidx] at hnp
  simpa [List.get_eq_getElem] using hnp

theorem first_le_last {α : Type} (l : List α) (p : α → Bool)
    (hany : l.any p = true) :
    l.findIdx p ≤ l.length - 1 - l.reverse.findIdx p := by
  by_contra hcon
  push_neg at hcon
  have hf : l.findIdx p < l.length :=
    List.findIdx_lt_length_of_exists (List.any_eq_true.mp hany)
  have hlast_lt : l.length - 1 - l.reverse.findIdx p < l.length := by omega
  have hplast := p_last_true l p hany hlast_lt
  have hnp := List.not_of_lt_findIdx hcon
  simp only [List.get_eq_getElem] at hplast
  rw [hnp] at hplast
  cases hplast

/-! ### Claim C10: frame safety at the first and last sample -/

theorem roadWindow_fst_length_ge {α : Type} [LinearOrderedField α]
    (road_x road_z : List α) (x_inst : α) :
    2 ≤ (roadWindow road_x road_z x_inst).1.length := by
  simp only [roadWindow, window_range]
  split_ifs with hany
  · have hf : ((-10 : α) :: (road_x ++ [100])).findIdx
        (fun x => decide (x_inst - 2 ≤ x) && decide (x ≤ x_inst + 2)) <
        ((-10 : α) :: (road_x ++ [100])).length :=
      List.findIdx_lt_length_of_exists (List.any_eq_true.mp hany)
    have hfl := first_le_last ((-10 : α) :: (road_x ++ [100]))
      (fun x => decide (x_inst - 2 ≤ x) && decide (x ≤ x_inst + 2)) hany
    have hlen2 : 2 ≤ ((-10 : α) :: (road_x ++ [100])).length := by
      simp [List.length_append]
    rw [List.length_take, List.length_drop]
    omega
  · simp

theorem create_damper_traces_min_length {α : Type} [LinearOrderedField α]
    (xc zb zt L0 : α) :
    ∀ d ∈ create_damper_traces xc zb zt L0, 2 ≤ d.1.length := by
  intro d hd
  simp only [create_damper_traces, List.mem_cons, List.not_mem_nil,
    or_false] at hd
  rcases hd with h | h | h | h <;> subst h <;> simp

/-- Claim C10: with consistent nonempty result arrays, the frames at the
very first and very last sample index are produced without raising, and
every polyline/polygon in them has at least 2 vertices: the road view has
at least 2 points, mass boxes 5, springs always exactly 8 (for any spring
state, including zero or negative coil length), damper parts 2 or 4. -/
theorem c10_frame_safety {α : Type} [LinearOrderedField α]
    (r : SimulationResult α)
    (hne : r.time ≠ [])
    (hlon : r.lon.length = r.time.length)
    (hzs : r.z_s.length = r.time.length)
    (hzu : r.z_u.length = r.time.length)
    (hu : r.u.length = r.time.length) :
    ∃ f0 fN : Frame α,
      create_animation_frame r 0 = Except.ok f0
      ∧ create_animation_frame r ((r.time.length : ℤ) - 1) = Except.ok fN
      ∧ (2 ≤ f0.road_view.1.length ∧ f0.sprung.1.length = 5
          ∧ f0.unsprung.1.length = 5 ∧ f0.tire_spring.1.length = 8
          ∧ f0.susp_spring.1.length = 8
          ∧ ∀ d ∈ f0.damper, 2 ≤ d.1.length)
      ∧ (2 ≤ fN.road_view.1.length ∧ fN.sprung.1.length = 5
          ∧ fN.unsprung.1.length = 5 ∧ fN.tire_spring.1.length = 8
          ∧ fN.susp_spring.1.length = 8
          ∧ ∀ d ∈ fN.damper, 2 ≤ d.1.length) := by
  have hlen : 0 < r.time.length := List.length_pos.mpr hne
  obtain ⟨a1, ha1⟩ := pyIdx_eq_ok r.lon 0 (by omega)
  obtain ⟨a2, ha2⟩ := pyIdx_eq_ok r.z_s 0 (by omega)
  obtain ⟨a3, ha3⟩ := pyIdx_eq_ok r.z_u 0 (by omega)
  obtain ⟨a4, ha4⟩ := pyIdx_eq_ok r.u 0 (by omega)
  obtain ⟨a5, ha5⟩ := pyIdx_eq_ok r.time 0 (by omega)
  obtain ⟨b1, hb1⟩ := pyIdx_eq_ok r.lon ((r.time.length : ℤ) - 1) (by omega)
  obtain ⟨b2, hb2⟩ := pyIdx_eq_ok r.z_s ((r.time.length : ℤ) - 1) (by omega)
  obtain ⟨b3, hb3⟩ := pyIdx_eq_ok r.z_u ((r.time.length : ℤ) - 1) (by omega)
  obtain ⟨b4, hb4⟩ := pyIdx_eq_ok r.u ((r.time.length : ℤ) - 1) (by omega)
  obtain ⟨b5, hb5⟩ := pyIdx_eq_ok r.time ((r.time.length : ℤ) - 1) (by omega)
  refine ⟨?f0, ?fN, ?he0, ?heN, ?hp0, ?hpN⟩
  case he0 =>
    simp only [create_animation_frame, ha1, ha2, ha3, ha4, ha5]
    exact rfl
  case heN =>
    simp only [create_animation_frame, hb1, hb2, hb3, hb4, hb5]
    exact rfl
  case hp0 =>
    exact ⟨roadWindow_fst_length_ge _ _ _, rfl, rfl, rfl, rfl,
      create_damper_traces_min_length _ _ _ _⟩
  case hpN =>
    exact ⟨roadWindow_fst_length_ge _ _ _, rfl, rfl, rfl, rfl,
      create_damper_traces_min_length _ _ _ _⟩

/-- Witness for c10_frame_safety at the concrete example result. -/
theorem c10_frame_safety_witness :
    exampleResult.time ≠ [] ∧
      (∃ f0 fN : Frame ℚ,
        create_animation_frame exampleResult 0 = Except.ok f0
        ∧ create_animation_frame exampleResult
            ((exampleResult.time.length : ℤ) - 1) = Except.ok fN
        ∧ (2 ≤ f0.road_view.1.length ∧ f0.sprung.1.length = 5
            ∧ f0.unsprung.1.length = 5 ∧ f0.tire_spring.1.length = 8
            ∧ f0.susp_spring.1.length = 8
            ∧ ∀ d ∈ f0.damper, 2 ≤ d.1.length)
        ∧ (2 ≤ fN.road_view.1.length ∧ fN.sprung.1.length = 5
            ∧ fN.unsprung.1.length = 5 ∧ fN.tire_spring.1.length = 8
            ∧ fN.susp_spring.1.length = 8
            ∧ ∀ d ∈ fN.damper, 2 ≤ d.1.length)) :=
  ⟨by decide, c10_frame_safety exampleResult (by decide) rfl rfl rfl rfl⟩

/-! ### Claim C4: parameter validation -/

/-- Errors the simulation entry point could surface: the spec's
InvalidParameterError, and numpy's ValueError (np.linspace raises it when
the sample count is negative). -/
inductive SimError where
  | invalidParameter : SimError
  | valueError : SimError
deriving DecidableEq

/-- Data computed by run_simulation before the lsim call. -/
structure SimulationSetup where
  time : List ℚ
  lon : List ℚ
  A : Matrix (Fin 4) (Fin 4) ℚ
  B : Matrix (Fin 4) (Fin 1) ℚ
  C : Matrix (Fin 2) (Fin 4) ℚ
  D : Matrix (Fin 2) (Fin 1) ℚ
  road_x : List ℝ
  road_z : List ℝ
  u : List ℝ

/-- Embeds run_simulation (lines 81-134) up to the lsim call.  The source
performs no parameter validation of any kind: the only failure point
before integration is np.linspace raising ValueError when the computed
sample count int(tF*fR) is negative (vel < 0); no InvalidParameterError
exists anywhere in the code. -/
noncomputable def run_simulation_setup (p : SimulationParams) :
    Except SimError SimulationSetup :=
  if num_frames p < 0 then Except.error SimError.valueError
  else Except.ok
    { time := timeList p
      lon := lonList p
      A := Amat p
      B := Bmat p
      C := Cmat
      D := Dmat
      road_x := Xr
      road_z := Zr
      u := (lonList p).map (fun x => interpRoad (x : ℝ)) }

/-- Claim C4 evaluation at a failing input: with the invalid parameter
Kt = -200000 (M, m, Ks, Cs, vel valid), run_simulation proceeds and its
setup succeeds, instead of failing fast with InvalidParameterError; the
same holds for any nonpositive M, m, Ks, Kt or negative Cs since the code
never inspects the signs. -/
theorem c4_no_validation :
    (run_simulation_setup ⟨1500, 150, 48000, 1000, -200000, 2⟩).isOk = true
    ∧ (⟨1500, 150, 48000, 1000, -200000, 2⟩ : SimulationParams).Kt < 0 := by
  constructor
  · have hnf : num_frames ⟨1500, 150, 48000, 1000, -200000, 2⟩ = 180 := by
      unfold num_frames
      have ht : tF ⟨1500, 150, 48000, 1000, -200000, 2⟩ * fR = 180 := by
        norm_num [tF, xF, fR, playback_speed]
      rw [ht, pyInt, if_pos (by norm_num)]
      exact Int.floor_eq_iff.mpr (by norm_num)
    have h : ¬(num_frames ⟨1500, 150, 48000, 1000, -200000, 2⟩ < 0) := by
      omega
    rw [run_simulation_setup, if_neg h]
    rfl
  · norm_num

/-! ### Claim C3: characterization of the selected road window -/

theorem take_drop_length_facts {α : Type} {l : List α} {s n k : ℕ}
    (h : k < ((l.drop s).take n).length) : k < n ∧ s + k < l.length := by
  simp only [List.length_take, List.length_drop] at h
  omega

theorem take_drop_getElem {α : Type} {l : List α} {s n k : ℕ}
    (h : k < ((l.drop s).take n).length) (hsk : s + k < l.length) :
    ((l.drop s).take n)[k] = l[s + k] := by
  rw [List.getElem_take, List.getElem_drop]

theorem mem_take_drop {α : Type} {l : List α} {s n : ℕ} {y : α}
    (hy : y ∈ (l.drop s).take n) :
    ∃ k, ∃ hsk : s + k < l.length, k < n ∧ y = l[s + k] := by
  obtain ⟨k, hk, he⟩ := List.mem_iff_getElem.mp hy
  obtain ⟨hk1, hk2⟩ := take_drop_length_facts hk
  exact ⟨k, hk2, hk1, by rw [← he, take_drop_getElem hk hk2]⟩

theorem mem_take_getElem {α : Type} {l : List α} {n : ℕ} {y : α}
    (hy : y ∈ l.take n) : ∃ k, ∃ hkl : k < l.length, k < n ∧ y = l[k] := by
  obtain ⟨k, hk, he⟩ := List.mem_iff_getElem.mp hy
  simp only [List.length_take] at hk
  exact ⟨k, by omega, by omega, by rw [← he, List.getElem_take]⟩

theorem mem_drop_getElem {α : Type} {l : List α} {s : ℕ} {y : α}
    (hy : y ∈ l.drop s) : ∃ k, ∃ hsk : s + k < l.length, y = l[s + k] := by
  obtain ⟨k, hk, he⟩ := List.mem_iff_getElem.mp hy
  simp only [List.length_drop] at hk
  exact ⟨k, by omega, by rw [← he, List.getElem_drop]⟩

set_option maxHeartbeats 1600000 in
/-- Core characterization of create_animation_frame's window selection over
a strictly sorted knot list that has a point strictly below the window, a
point strictly above it, and at least one point inside: the selected slice
contains every in-window point, exactly one guard point below and one guard
point above the window, and nothing else. -/
theorem window_select_facts {α : Type} [LinearOrderedField α]
    (l : List α) (P : α → Bool) (lo hi hd lst : α) (hle : lo ≤ hi)
    (hP : ∀ y, P y = (decide (lo ≤ y) && decide (y ≤ hi)))
    (hsort : List.Pairwise (· < ·) l)
    (hh1 : l.head? = some hd) (hh2 : hd < lo)
    (hz1 : l.getLast? = some lst) (hz2 : hi < lst)
    (hin : ∃ x ∈ l, lo ≤ x ∧ x ≤ hi) :
    (∀ x ∈ l, lo ≤ x → x ≤ hi →
        x ∈ (l.drop (window_range l P).1).take
          ((window_range l P).2 - (window_range l P).1))
    ∧ (((l.drop (window_range l P).1).take
          ((window_range l P).2 - (window_range l P).1)).filter
            (fun x => decide (x < lo))).length = 1
    ∧ (((l.drop (window_range l P).1).take
          ((window_range l P).2 - (window_range l P).1)).filter
            (fun x => decide (hi < x))).length = 1
    ∧ ((l.drop (window_range l P).1).take
          ((window_range l P).2 - (window_range l P).1)).length =
        (l.filter P).length + 2 := by
  have hP_iff : ∀ y, P y = true ↔ (lo ≤ y ∧ y ≤ hi) := by
    intro y
    rw [hP]
    simp
  have hany : l.any P = true := by
    obtain ⟨x0, hm, h1, h2⟩ := hin
    exact List.any_eq_true.mpr ⟨x0, hm, (hP_iff x0).mpr ⟨h1, h2⟩⟩
  have hf_lt : l.findIdx P < l.length :=
    List.findIdx_lt_length_of_exists (List.any_eq_true.mp hany)
  have hr_lt : l.reverse.findIdx P < l.length := revIdx_lt l P hany
  have hfl : l.findIdx P ≤ l.length - 1 - l.reverse.findIdx P :=
    first_le_last l P hany
  have hlen_pos : 0 < l.length := by omega
  have hlast_lt : l.length - 1 - l.reverse.findIdx P < l.length := by omega
  have hPfirst : P l[l.findIdx P] = true := @List.findIdx_getElem _ P l hf_lt
  have hPlast : P l[l.length - 1 - l.reverse.findIdx P] = true := by
    have h2 := p_last_true l P hany hlast_lt
    simpa [List.get_eq_getElem] using h2
  have hstrict := List.pairwise_iff_getElem.mp hsort
  have hmono : ∀ i j, ∀ hbi : i < l.length, ∀ hbj : j < l.length, i ≤ j →
      l.get ⟨i, hbi⟩ ≤ l.get ⟨j, hbj⟩ := by
    intro i j hbi hbj hij
    rcases Nat.lt_or_ge i j with h | h
    · simp only [List.get_eq_getElem]
      exact le_of_lt (hstrict i j hbi hbj h)
    · have hij' : i = j := by omega
      subst hij'
      exact le_refl _
  have hbelow : ∀ j, (hj : j < l.length) → j < l.findIdx P → l[j] < lo := by
    intro j hj hjf
    have hnp : P l[j] = false := List.not_of_lt_findIdx hjf
    by_contra hc
    push_neg at hc
    have hup : l[j] ≤ hi := by
      have h1 : l[j] < l[l.findIdx P] := hstrict j (l.findIdx P) hj hf_lt hjf
      have h2 : l[l.findIdx P] ≤ hi := ((hP_iff _).mp hPfirst).2
      linarith
    have htr := (hP_iff _).mpr ⟨hc, hup⟩
    simp [hnp] at htr
  have habove : ∀ j, (hj : j < l.length) →
      l.length - 1 - l.reverse.findIdx P < j → hi < l[j] := by
    intro j hj hjl
    have hnp : P (l.get ⟨j, hj⟩) = false := p_false_after l P hany hj (by omega)
    simp only [List.get_eq_getElem] at hnp
    by_contra hc
    push_neg at hc
    have hdn : lo ≤ l[j] := by
      have h1 : l[l.length - 1 - l.reverse.findIdx P] < l[j] :=
        hstrict _ j hlast_lt hj hjl
      have h2 : lo ≤ l[l.length - 1 - l.reverse.findIdx P] :=
        ((hP_iff _).mp hPlast).1
      linarith
    have htr := (hP_iff _).mpr ⟨hdn, hc⟩
    simp [hnp] at htr
  have hF_pos : 1 ≤ l.findIdx P := by
    by_contra hc
    push_neg at hc
    have hF0 : l.findIdx P = 0 := by omega
    have h0 : l[0] = hd := by
      have hh := hh1
      rw [List.head?_eq_getElem?, List.getElem?_eq_getElem hlen_pos] at hh
      simpa using hh
    have hPat := hPfirst
    simp only [hF0, h0] at hPat
    have := (hP_iff hd).mp hPat
    linarith [this.1]
  have hLst_le : l.length - 1 - l.reverse.findIdx P + 2 ≤ l.length := by
    by_contra hc
    push_neg at hc
    have hLl : l.length - 1 - l.reverse.findIdx P = l.length - 1 := by omega
    have hglast : l[l.length - 1] = lst := by
      have hz := hz1
      rw [List.getLast?_eq_getElem?, List.getElem?_eq_getElem (by omega)] at hz
      simpa using hz
    have hPat := hPlast
    simp only [hLl, hglast] at hPat
    have := (hP_iff lst).mp hPat
    linarith [this.2]
  have hwr1 : (window_range l P).1 = l.findIdx P - 1 := rfl
  have hwr2 : (window_range l P).2 =
      l.length - 1 - l.reverse.findIdx P + 2 := by
    simp only [window_range]
    exact min_eq_right hLst_le
  rw [hwr1, hwr2]
  have hslice_len : ((l.drop (l.findIdx P - 1)).take
      (l.length - 1 - l.reverse.findIdx P + 2 - (l.findIdx P - 1))).length =
      l.length - 1 - l.reverse.findIdx P + 2 - (l.findIdx P - 1) := by
    simp only [List.length_take, List.length_drop]
    omega
  refine ⟨?_, ?_, ?_, ?_⟩
  · -- every in-window point is in the slice
    intro x hxmem hx1 hx2
    obtain ⟨j, hj, hxe⟩ := List.mem_iff_getElem.mp hxmem
    subst hxe
    have hjF : l.findIdx P ≤ j := by
      by_contra hcc
      push_neg at hcc
      have := hbelow j hj hcc
      linarith
    have hjL : j ≤ l.length - 1 - l.reverse.findIdx P := by
      by_contra hcc
      push_neg at hcc
      have := habove j hj hcc
      linarith
    refine List.mem_iff_getElem.mpr ⟨j - (l.findIdx P - 1), ?_, ?_⟩
    · rw [hslice_len]
      omega
    · have hb : j - (l.findIdx P - 1) < ((l.drop (l.findIdx P - 1)).take
          (l.length - 1 - l.reverse.findIdx P + 2 - (l.findIdx P - 1))).length := by
        rw [hslice_len]
        omega
      rw [take_drop_getElem hb (by omega)]
      simp only [show l.findIdx P - 1 + (j - (l.findIdx P - 1)) = j from by omega]
  · -- exactly one point below the window (the left guard)
    have hsF : l.findIdx P - 1 < l.length := by omega
    have hdecomp := List.drop_eq_getElem_cons hsF
    rw [show l.findIdx P - 1 + 1 = l.findIdx P from by omega] at hdecomp
    rw [hdecomp,
      show l.length - 1 - l.reverse.findIdx P + 2 - (l.findIdx P - 1) =
        (l.length - 1 - l.reverse.findIdx P + 2 - l.findIdx P) + 1 from by omega,
      List.take_succ_cons, List.filter_cons]
    have hhead_lt : l[l.findIdx P - 1] < lo := hbelow _ hsF (by omega)
    rw [if_pos (by simpa using hhead_lt)]
    have htail : ((l.drop (l.findIdx P)).take
        (l.length - 1 - l.reverse.findIdx P + 2 - l.findIdx P)).filter
          (fun x => decide (x < lo)) = [] := by
      rw [List.filter_eq_nil_iff]
      intro y hy
      obtain ⟨k, hsk, hk, hye⟩ := mem_take_drop hy
      subst hye
      simp only [decide_eq_true_eq, not_lt]
      by_cases hcase : l.findIdx P + k ≤ l.length - 1 - l.reverse.findIdx P
      · have h1 : lo ≤ l[l.findIdx P] := ((hP_iff _).mp hPfirst).1
        have h2 : l.get ⟨l.findIdx P, hf_lt⟩ ≤ l.get ⟨l.findIdx P + k, hsk⟩ :=
          hmono _ _ hf_lt hsk (by omega)
        simp only [List.get_eq_getElem] at h2
        linarith
      · have := habove (l.findIdx P + k) hsk (by omega)
        linarith
    rw [htail]
    simp
  · -- exactly one point above the window (the right guard)
    rw [show l.length - 1 - l.reverse.findIdx P + 2 - (l.findIdx P - 1) =
        (l.length - 1 - l.reverse.findIdx P + 1 - (l.findIdx P - 1)) + 1 from by omega,
      List.take_succ]
    have hmlt : l.length - 1 - l.reverse.findIdx P + 1 - (l.findIdx P - 1) <
        (l.drop (l.findIdx P - 1)).length := by
      rw [List.length_drop]
      omega
    rw [List.getElem?_eq_getElem hmlt, List.getElem_drop]
    simp only [show l.findIdx P - 1 +
        (l.length - 1 - l.reverse.findIdx P + 1 - (l.findIdx P - 1)) =
        l.length - 1 - l.reverse.findIdx P + 1 from by omega]
    rw [List.filter_append, List.length_append]
    have htop : hi < l[l.length - 1 - l.reverse.findIdx P + 1] :=
      habove _ (by omega) (by omega)
    have hfront : ((l.drop (l.findIdx P - 1)).take
        (l.length - 1 - l.reverse.findIdx P + 1 - (l.findIdx P - 1))).filter
          (fun x => decide (hi < x)) = [] := by
      rw [List.filter_eq_nil_iff]
      intro y hy
      obtain ⟨k, hsk, hk, hye⟩ := mem_take_drop hy
      subst hye
      simp only [decide_eq_true_eq, not_lt]
      by_cases hcase : k = 0
      · subst hcase
        have := hbelow (l.findIdx P - 1 + 0) (by omega) (by omega)
        linarith
      · have hup : l.get ⟨l.findIdx P - 1 + k, hsk⟩ ≤
            l.get ⟨l.length - 1 - l.reverse.findIdx P, hlast_lt⟩ :=
          hmono _ _ hsk hlast_lt (by omega)
        simp only [List.get_eq_getElem] at hup
        have h2 : l[l.length - 1 - l.reverse.findIdx P] ≤ hi :=
          ((hP_iff _).mp hPlast).2
        linarith
    rw [hfront]
    simp [htop]
  · -- slice length = number of in-window points + the two guards
    rw [hslice_len]
    have hcount : (l.filter P).length =
        l.length - 1 - l.reverse.findIdx P + 1 - l.findIdx P := by
      have hdec1 : l.filter P =
          (l.take (l.findIdx P)).filter P ++ (l.drop (l.findIdx P)).filter P := by
        rw [← List.filter_append, List.take_append_drop]
      have hdec2 : (l.drop (l.findIdx P)).filter P =
          ((l.drop (l.findIdx P)).take
            (l.length - 1 - l.reverse.findIdx P + 1 - l.findIdx P)).filter P ++
          (l.drop (l.length - 1 - l.reverse.findIdx P + 1)).filter P := by
        rw [← List.filter_append]
        congr 1
        have := List.take_append_drop
          (l.length - 1 - l.reverse.findIdx P + 1 - l.findIdx P)
          (l.drop (l.findIdx P))
        rw [List.drop_drop, show l.findIdx P +
          (l.length - 1 - l.reverse.findIdx P + 1 - l.findIdx P) =
          l.length - 1 - l.reverse.findIdx P + 1 from by omega] at this
        exact this.symm
      have h1 : (l.take (l.findIdx P)).filter P = [] := by
        rw [List.filter_eq_nil_iff]
        intro y hy
        obtain ⟨k, hkl, hk, hye⟩ := mem_take_getElem hy
        subst hye
        have := hbelow k hkl hk
        rw [hP]
        simp only [Bool.and_eq_true, decide_eq_true_eq, not_and, not_le]
        intro h
        linarith
      have h2 : ((l.drop (l.findIdx P)).take
          (l.length - 1 - l.reverse.findIdx P + 1 - l.findIdx P)).filter P =
          (l.drop (l.findIdx P)).take
            (l.length - 1 - l.reverse.findIdx P + 1 - l.findIdx P) := by
        rw [List.filter_eq_self]
        intro y hy
        obtain ⟨k, hsk, hk, hye⟩ := mem_take_drop hy
        subst hye
        have hge : lo ≤ l[l.findIdx P + k] := by
          have ha := ((hP_iff _).mp hPfirst).1
          have hb := hmono (l.findIdx P) (l.findIdx P + k) hf_lt hsk (by omega)
          simp only [List.get_eq_getElem] at hb
          linarith
        have hle2 : l[l.findIdx P + k] ≤ hi := by
          have ha := ((hP_iff _).mp hPlast).2
          have hb := hmono (l.findIdx P + k)
            (l.length - 1 - l.reverse.findIdx P) hsk hlast_lt (by omega)
          simp only [List.get_eq_getElem] at hb
          linarith
        exact (hP_iff _).mpr ⟨hge, hle2⟩
      have h3 : (l.drop (l.length - 1 - l.reverse.findIdx P + 1)).filter P
          = [] := by
        rw [List.filter_eq_nil_iff]
        intro y hy
        obtain ⟨k, hsk, hye⟩ := mem_drop_getElem hy
        subst hye
        have := habove (l.length - 1 - l.reverse.findIdx P + 1 + k) hsk
          (by omega)
        rw [hP]
        simp only [Bool.and_eq_true, decide_eq_true_eq, not_and, not_le]
        intro h
        linarith
      rw [hdec1, hdec2, h1, h2, h3]
      simp only [List.length_append, List.length_nil, List.length_take,
        List.length_drop]
      omega
    rw [hcount]
    omega

theorem roadWindow_pos_eq {α : Type} [LinearOrderedField α]
    (road_x road_z : List α) (x_inst : α)
    (hany : ((-10 : α) :: (road_x ++ [100])).any
        (fun x => decide (x_inst - 2 ≤ x) && decide (x ≤ x_inst + 2)) = true) :
    (roadWindow road_x road_z x_inst).1 =
      (((-10 : α) :: (road_x ++ [100])).drop
          (window_range ((-10 : α) :: (road_x ++ [100]))
            (fun x => decide (x_inst - 2 ≤ x) && decide (x ≤ x_inst + 2))).1).take
        ((window_range ((-10 : α) :: (road_x ++ [100]))
            (fun x => decide (x_inst - 2 ≤ x) && decide (x ≤ x_inst + 2))).2 -
          (window_range ((-10 : α) :: (road_x ++ [100]))
            (fun x => decide (x_inst - 2 ≤ x) && decide (x ≤ x_inst + 2))).1) := by
  simp only [roadWindow]
  rw [if_pos hany]

/-- Claim C3 as amended: the road window produced by frame(result, i) is
the contiguous run of sentinel-extended road points lying within the
buffered interval [lon[i] - 2, lon[i] + 2] (the code filters with
l_win = 2, twice the displayed 1 m half-window), plus exactly one guard
point on each side. -/
theorem c3_window {α : Type} [LinearOrderedField α]
    (road_x road_z : List α) (x_inst : α)
    (hsort : List.Pairwise (· < ·) ((-10 : α) :: (road_x ++ [100])))
    (hlo : (-10 : α) < x_inst - 2) (hhi : x_inst + 2 < 100)
    (hin : ∃ x ∈ road_x, x_inst - 2 ≤ x ∧ x ≤ x_inst + 2) :
    (∀ x ∈ (-10 : α) :: (road_x ++ [100]),
        x_inst - 2 ≤ x → x ≤ x_inst + 2 →
          x ∈ (roadWindow road_x road_z x_inst).1)
    ∧ ((roadWindow road_x road_z x_inst).1.filter
        (fun x => decide (x < x_inst - 2))).length = 1
    ∧ ((roadWindow road_x road_z x_inst).1.filter
        (fun x => decide (x_inst + 2 < x))).length = 1
    ∧ (roadWindow road_x road_z x_inst).1.length =
        (((-10 : α) :: (road_x ++ [100])).filter
          (fun x => decide (x_inst - 2 ≤ x) &&
            decide (x ≤ x_inst + 2))).length + 2 := by
  obtain ⟨x0, hm0, h01, h02⟩ := hin
  have hany : ((-10 : α) :: (road_x ++ [100])).any
      (fun x => decide (x_inst - 2 ≤ x) && decide (x ≤ x_inst + 2)) = true :=
    List.any_eq_true.mpr ⟨x0,
      List.mem_cons_of_mem _ (List.mem_append_left _ hm0),
      by simp [h01, h02]⟩
  rw [roadWindow_pos_eq road_x road_z x_inst hany]
  have hlast100 : ((-10 : α) :: (road_x ++ [100])).getLast? = some 100 := by
    have h1 : (road_x ++ [100]).getLast? = some (100 : α) := by
      rw [List.getLast?_append_of_ne_nil _ (by simp)]
      rfl
    have h2 : (((-10 : α) :: (road_x ++ [100]))).getLast? =
        (road_x ++ [(100 : α)]).getLast? :=
      List.getLast?_append_of_ne_nil [(-10 : α)] (by simp)
    rw [h2, h1]
  exact window_select_facts ((-10 : α) :: (road_x ++ [100]))
    (fun x => decide (x_inst - 2 ≤ x) && decide (x ≤ x_inst + 2))
    (x_inst - 2) (x_inst + 2) (-10) 100 (by linarith) (fun y => rfl)
    hsort rfl hlo hlast100 hhi
    ⟨x0, List.mem_cons_of_mem _ (List.mem_append_left _ hm0), h01, h02⟩

/-- Claim C3 fails as stated: at lon[0] = 2 over the flat road sampled at
0..4, the window produced by the frame contains all seven extended points
(everything within lon ± 2, both sentinels included as guards), while the
minimal contiguous range covering [lon - 1, lon + 1] plus one guard point
per side is only the five points 0..4. -/
theorem c3_counterexample :
    (create_animation_frame exampleResult3 0).map (fun f => f.road_view.1) =
      Except.ok (roadWindow exampleResult3.road_x exampleResult3.road_z 2).1
    ∧ (roadWindow exampleResult3.road_x exampleResult3.road_z 2).1 =
        [-10, 0, 1, 2, 3, 4, 100]
    ∧ (specRoadWindow exampleResult3.road_x exampleResult3.road_z 2).1 =
        [0, 1, 2, 3, 4]
    ∧ ([-10, 0, 1, 2, 3, 4, 100] : List ℚ) ≠ [0, 1, 2, 3, 4] := by
  refine ⟨rfl, ?_, ?_, by decide⟩
  · simp only [roadWindow, window_range, exampleResult3,
      show (2 : ℚ) - 2 = 0 from by norm_num,
      show (2 : ℚ) + 2 = 4 from by norm_num]
    decide
  · simp only [specRoadWindow, exampleResult3,
      show (2 : ℚ) - 1 = 1 from by norm_num,
      show (2 : ℚ) + 1 = 3 from by norm_num]
    decide

/-- Witness for c3_window on a small sorted road with the window interior
inhabited. -/
theorem c3_window_witness :
    (List.Pairwise (· < ·) ((-10 : ℚ) :: (([0, 1, 2, 3] : List ℚ) ++ [100]))
      ∧ (-10 : ℚ) < (1 : ℚ) - 2 ∧ (1 : ℚ) + 2 < 100
      ∧ ∃ x ∈ ([0, 1, 2, 3] : List ℚ), (1 : ℚ) - 2 ≤ x ∧ x ≤ (1 : ℚ) + 2)
    ∧ ((roadWindow ([0, 1, 2, 3] : List ℚ) ([0, 0, 0, 0] : List ℚ) 1).1.filter
        (fun x => decide (x < (1 : ℚ) - 2))).length = 1 :=
  ⟨⟨by decide, by norm_num, by norm_num, ⟨1, by decide, by norm_num⟩⟩,
    (c3_window ([0, 1, 2, 3] : List ℚ) ([0, 0, 0, 0] : List ℚ) 1
      (by decide) (by norm_num) (by norm_num)
      ⟨1, by decide, by norm_num⟩).2.1⟩

end QuarterCar
